import Mathlib

/-!
Verification of the corrected-calcium calculation service (`src/main.py`).

The service validates three numeric form fields against closed ranges
(pydantic `Field(ge=..., le=...)` constraints, with `normal_albumin`
defaulting to `4.0` when omitted) and computes
`round(measured_calcium + 0.8 * (normal_albumin - serum_albumin), 1)`.

Numbers are modelled as exact rationals (`ℚ`) standing for the decimal
values carried by the Python floats; Python's built-in `round` (round
half to even) is modelled by `rne` / `round1` below.
-/

namespace CalcCorrection

/-- Round half to even to the nearest integer — the convention of Python's
built-in `round`. -/
def rne (q : ℚ) : ℤ :=
  if q - ⌊q⌋ < 1/2 then ⌊q⌋
  else if 1/2 < q - ⌊q⌋ then ⌊q⌋ + 1
  else if ⌊q⌋ % 2 = 0 then ⌊q⌋ else ⌊q⌋ + 1

/-- `round(x, 1)` from `src/main.py` line 80: round to one decimal place,
half to even. -/
def round1 (q : ℚ) : ℚ := (rne (10 * q) : ℚ) / 10

/-- Modelled from the spec: the alternative rounding convention the spec
leaves open (round half away from zero, nearest integer), absent from the
code; defined only to be compared with the convention the code picked. -/
def rnaz (q : ℚ) : ℤ :=
  if 0 ≤ q then ⌊q + 1/2⌋ else -⌊1/2 - q⌋

/-- Modelled from the spec: round half away from zero to one decimal place,
the rejected alternative for `round(x, 1)`. -/
def roundHalfAway1 (q : ℚ) : ℚ := (rnaz (10 * q) : ℚ) / 10

/-- Validated input schema `CalciumCorrectionInput` (`src/main.py` lines
23-47): three numeric fields, already past their range checks. -/
structure CalciumCorrectionInput where
  measured_calcium : ℚ
  serum_albumin : ℚ
  normal_albumin : ℚ
  deriving DecidableEq

/-- Output schema `CalciumCorrectionOutput` (`src/main.py` lines 50-57). -/
structure CalciumCorrectionOutput where
  corrected_calcium : ℚ
  deriving DecidableEq

/-- Identifies which input field a validation error is about. -/
inductive FieldId where
  | measuredCalcium
  | serumAlbumin
  | normalAlbumin
  deriving DecidableEq

/-- The kind of validation failure pydantic reports for a field. -/
inductive ErrKind where
  | missingField
  | nonNumericField
  | outOfRange
  deriving DecidableEq

/-- A pydantic validation error: the offending field and failure kind. -/
structure ValidationError where
  fieldId : FieldId
  kind : ErrKind
  deriving DecidableEq

/-- A raw form field as received by FastAPI before pydantic validation:
absent, present but not parseable as a number, or a numeric value. -/
inductive RawField where
  | missing
  | nonNumeric
  | num (q : ℚ)
  deriving DecidableEq

/-- A raw form request to the `/calculate` endpoint. -/
structure RawRequest where
  measured_calcium : RawField
  serum_albumin : RawField
  normal_albumin : RawField
  deriving DecidableEq

/-- Pydantic validation of one field declared with `Field(ge=lo, le=hi)`
and optional default: missing is an error unless a default exists,
non-numeric is an error, and a numeric value must lie in `[lo, hi]`. -/
def parseField (fid : FieldId) (lo hi : ℚ) (dflt : Option ℚ) :
    RawField → Except ValidationError ℚ
  | .missing =>
    match dflt with
    | some d => .ok d
    | none => .error ⟨fid, .missingField⟩
  | .nonNumeric => .error ⟨fid, .nonNumericField⟩
  | .num q => if lo ≤ q ∧ q ≤ hi then .ok q else .error ⟨fid, .outOfRange⟩

/-- Pydantic validation of the whole `CalciumCorrectionInput` model:
`measured_calcium` in `[4.0, 14.0]`, `serum_albumin` in `[2.0, 5.5]`,
`normal_albumin` in `[3.0, 5.0]` with default `4.0`
(`src/main.py` lines 26-47). -/
def validate (r : RawRequest) : Except ValidationError CalciumCorrectionInput :=
  match parseField .measuredCalcium 4.0 14.0 none r.measured_calcium with
  | .error e => .error e
  | .ok m =>
    match parseField .serumAlbumin 2.0 5.5 none r.serum_albumin with
    | .error e => .error e
    | .ok s =>
      match parseField .normalAlbumin 3.0 5.0 (some 4.0) r.normal_albumin with
      | .error e => .error e
      | .ok n => .ok ⟨m, s, n⟩

/-- The handler body `calculate_corrected_calcium` (`src/main.py` lines
65-82): `corrected = measured + 0.8 * (normal - serum)`, rounded to one
decimal place. -/
def calculate_corrected_calcium (data : CalciumCorrectionInput) :
    CalciumCorrectionOutput :=
  let corrected_calcium := data.measured_calcium
    + 0.8 * (data.normal_albumin - data.serum_albumin)
  ⟨round1 corrected_calcium⟩

/-- The full `/calculate` operation: FastAPI validates the form against
`CalciumCorrectionInput`, then runs the handler on success. -/
def handleCalculate (r : RawRequest) :
    Except ValidationError CalciumCorrectionOutput :=
  (validate r).map calculate_corrected_calcium

/-- A raw field fails validation against `[lo, hi]` (with or without a
default for absence). -/
def rawFieldBad (lo hi : ℚ) (hasDefault : Bool) : RawField → Prop
  | .missing => hasDefault = false
  | .nonNumeric => True
  | .num q => ¬(lo ≤ q ∧ q ≤ hi)

/-- All three fields lie in their declared closed ranges. -/
def validInput (m s n : ℚ) : Prop :=
  (4.0 ≤ m ∧ m ≤ 14.0) ∧ (2.0 ≤ s ∧ s ≤ 5.5) ∧ (3.0 ≤ n ∧ n ≤ 5.0)

/-- Rounding half to even fixes integers. -/
lemma rne_intCast (k : ℤ) : rne (k : ℚ) = k := by
  unfold rne
  norm_num

/-- A value that is an exact multiple of one tenth is unchanged by `round1`. -/
lemma round1_eq_self (q : ℚ) (k : ℤ) (hk : 10 * q = (k : ℚ)) : round1 q = q := by
  rw [round1, hk, rne_intCast]
  linarith

/-- On an exact half, `rne` picks the even neighbour. -/
lemma rne_half_add (k : ℤ) : rne ((k : ℚ) + 1/2) = if k % 2 = 0 then k else k + 1 := by
  have hfl : ⌊(k : ℚ) + 1/2⌋ = k := by
    rw [add_comm, Int.floor_add_int]
    norm_num
  unfold rne
  rw [hfl]
  norm_num

/-- `rne` never rounds below an integer lower bound. -/
lemma int_le_rne (n : ℤ) (q : ℚ) (h : (n : ℚ) ≤ q) : n ≤ rne q := by
  have hfl : n ≤ ⌊q⌋ := Int.le_floor.mpr h
  unfold rne
  split_ifs <;> omega

/-- `rne` never rounds above an integer upper bound. -/
lemma rne_le_int (n : ℤ) (q : ℚ) (h : q ≤ (n : ℚ)) : rne q ≤ n := by
  have hfl : ⌊q⌋ ≤ n := by
    have h2 := Int.floor_le_floor h
    simpa using h2
  have hup : (⌊q⌋ : ℚ) ≤ q := Int.floor_le q
  unfold rne
  split_ifs with h1 h2 h3
  · exact hfl
  · have hq : (⌊q⌋ : ℚ) + 1/2 ≤ q := by
      have := not_lt.mp h1
      linarith
    have hlt : (⌊q⌋ : ℚ) < (n : ℚ) := by linarith
    have hlt2 : ⌊q⌋ < n := by exact_mod_cast hlt
    omega
  · exact hfl
  · have hq : (⌊q⌋ : ℚ) + 1/2 ≤ q := by
      have := not_lt.mp h1
      linarith
    have hlt : (⌊q⌋ : ℚ) < (n : ℚ) := by linarith
    have hlt2 : ⌊q⌋ < n := by exact_mod_cast hlt
    omega

/-- `round1` respects lower bounds that are exact tenths. -/
lemma round1_ge (q : ℚ) (n : ℤ) (h : (n : ℚ)/10 ≤ q) : (n : ℚ)/10 ≤ round1 q := by
  have h1 : (n : ℚ) ≤ 10 * q := by linarith
  have h2 := int_le_rne n (10 * q) h1
  have h3 : (n : ℚ) ≤ (rne (10 * q) : ℚ) := by exact_mod_cast h2
  rw [round1]
  linarith

/-- `round1` respects upper bounds that are exact tenths. -/
lemma round1_le (q : ℚ) (n : ℤ) (h : q ≤ (n : ℚ)/10) : round1 q ≤ (n : ℚ)/10 := by
  have h1 : 10 * q ≤ (n : ℚ) := by linarith
  have h2 := rne_le_int n (10 * q) h1
  have h3 : (rne (10 * q) : ℚ) ≤ (n : ℚ) := by exact_mod_cast h2
  rw [round1]
  linarith

/-- C1: for every input with `measuredCalcium` in `[4.0, 14.0]`,
`serumAlbumin` in `[2.0, 5.5]` and `normalAlbumin` in `[3.0, 5.0]`, the
operation returns `correctedCalcium` equal to
`round(measuredCalcium + 0.8 * (normalAlbumin - serumAlbumin), 1)`, the
formula result rounded to one decimal place. -/
theorem claim1_formula (m s n : ℚ)
    (hm : 4.0 ≤ m ∧ m ≤ 14.0) (hs : 2.0 ≤ s ∧ s ≤ 5.5) (hn : 3.0 ≤ n ∧ n ≤ 5.0) :
    handleCalculate ⟨.num m, .num s, .num n⟩ =
      .ok ⟨round1 (m + 0.8 * (n - s))⟩ := by
  simp [handleCalculate, validate, parseField, hm.1, hm.2, hs.1, hs.2, hn.1, hn.2,
    calculate_corrected_calcium, Except.map]

/-- Witness for C1 at measured 9.5, serum 3.5, normal 4.0. -/
theorem claim1_formula_witness :
    handleCalculate ⟨.num 9.5, .num 3.5, .num 4.0⟩ =
      .ok ⟨round1 (9.5 + 0.8 * (4.0 - 3.5))⟩ :=
  claim1_formula 9.5 3.5 4.0 (by norm_num) (by norm_num) (by norm_num)

/-- C2: validation fails (with a `ValidationError`) if and only if some
field is missing without a default, non-numeric, or outside its declared
closed range; when it fails no result is produced, and `ValidationError`
is the only error kind the operation can signal (the error type of
`validate`). -/
theorem claim2_validation_iff (r : RawRequest) :
    ((∃ e, validate r = .error e) ↔
      (rawFieldBad 4.0 14.0 false r.measured_calcium ∨
       rawFieldBad 2.0 5.5 false r.serum_albumin ∨
       rawFieldBad 3.0 5.0 true r.normal_albumin)) ∧
    (∀ e out, validate r = .error e → validate r ≠ .ok out) := by
  obtain ⟨mf, sf, nf⟩ := r
  refine ⟨?_, ?_⟩
  · cases mf <;> cases sf <;> cases nf <;>
      simp only [validate, parseField, rawFieldBad] <;>
      first
      | (split_ifs <;> simp_all)
      | simp_all
  · intro e out he hout
    rw [he] at hout
    exact Except.noConfusion hout

/-- C3: boundary acceptance — each range endpoint is accepted and values
just outside each range are rejected with a `ValidationError` naming the
offending field; all three intervals are closed on both ends. -/
theorem claim3_boundaries :
    validate ⟨.num 4.0, .num 3.5, .num 4.0⟩ = .ok ⟨4.0, 3.5, 4.0⟩ ∧
    validate ⟨.num 14.0, .num 3.5, .num 4.0⟩ = .ok ⟨14.0, 3.5, 4.0⟩ ∧
    validate ⟨.num 3.999, .num 3.5, .num 4.0⟩ = .error ⟨.measuredCalcium, .outOfRange⟩ ∧
    validate ⟨.num 14.001, .num 3.5, .num 4.0⟩ = .error ⟨.measuredCalcium, .outOfRange⟩ ∧
    validate ⟨.num 9.5, .num 2.0, .num 4.0⟩ = .ok ⟨9.5, 2.0, 4.0⟩ ∧
    validate ⟨.num 9.5, .num 5.5, .num 4.0⟩ = .ok ⟨9.5, 5.5, 4.0⟩ ∧
    validate ⟨.num 9.5, .num 1.999, .num 4.0⟩ = .error ⟨.serumAlbumin, .outOfRange⟩ ∧
    validate ⟨.num 9.5, .num 5.501, .num 4.0⟩ = .error ⟨.serumAlbumin, .outOfRange⟩ ∧
    validate ⟨.num 9.5, .num 3.5, .num 3.0⟩ = .ok ⟨9.5, 3.5, 3.0⟩ ∧
    validate ⟨.num 9.5, .num 3.5, .num 5.0⟩ = .ok ⟨9.5, 3.5, 5.0⟩ ∧
    validate ⟨.num 9.5, .num 3.5, .num 2.999⟩ = .error ⟨.normalAlbumin, .outOfRange⟩ ∧
    validate ⟨.num 9.5, .num 3.5, .num 5.001⟩ = .error ⟨.normalAlbumin, .outOfRange⟩ := by
  norm_num [validate, parseField]

/-- C4: omitting `normalAlbumin` produces exactly the same result as
passing 4.0 explicitly, for every valid `measuredCalcium`/`serumAlbumin`
pair. -/
theorem claim4_default (m s : ℚ)
    (hm : 4.0 ≤ m ∧ m ≤ 14.0) (hs : 2.0 ≤ s ∧ s ≤ 5.5) :
    handleCalculate ⟨.num m, .num s, .missing⟩ =
      handleCalculate ⟨.num m, .num s, .num 4.0⟩ := by
  have h4 : (3.0 : ℚ) ≤ 4.0 ∧ (4.0 : ℚ) ≤ 5.0 := by norm_num
  simp [handleCalculate, validate, parseField, hm.1, hm.2, hs.1, hs.2, h4.1, h4.2]

/-- Witness for C4 at measured 9.5, serum 3.5. -/
theorem claim4_default_witness :
    handleCalculate ⟨.num 9.5, .num 3.5, .missing⟩ =
      handleCalculate ⟨.num 9.5, .num 3.5, .num 4.0⟩ :=
  claim4_default 9.5 3.5 (by norm_num) (by norm_num)

/-- C5: the operation is deterministic — two invocations with identical
inputs yield identical outputs (purity holds by construction: the handler
is a function of the request alone, touching no shared state). -/
theorem claim5_deterministic (r₁ r₂ : RawRequest) (h : r₁ = r₂) :
    handleCalculate r₁ = handleCalculate r₂ := by
  rw [h]

/-- Witness for C5 at a concrete request. -/
theorem claim5_deterministic_witness :
    handleCalculate ⟨.num 9.5, .num 3.5, .missing⟩ =
      handleCalculate ⟨.num 9.5, .num 3.5, .missing⟩ :=
  claim5_deterministic _ _ rfl

/-- C6: totality on validated inputs — every request whose three fields
are within their closed ranges produces a result (`.ok`), never an
error. -/
theorem claim6_total (m s n : ℚ) (h : validInput m s n) :
    ∃ out : CalciumCorrectionOutput,
      handleCalculate ⟨.num m, .num s, .num n⟩ = .ok out := by
  obtain ⟨hm, hs, hn⟩ := h
  refine ⟨calculate_corrected_calcium ⟨m, s, n⟩, ?_⟩
  simp [handleCalculate, validate, parseField, hm.1, hm.2, hs.1, hs.2, hn.1, hn.2,
    Except.map]

/-- Witness for C6 at measured 9.5, serum 3.5, normal 4.0. -/
theorem claim6_total_witness :
    ∃ out : CalciumCorrectionOutput,
      handleCalculate ⟨.num 9.5, .num 3.5, .num 4.0⟩ = .ok out :=
  claim6_total 9.5 3.5 4.0 (by norm_num [validInput])

/-- C7: concrete scenarios — (9.5, 3.5, omitted) gives 9.9;
(8.0, 2.0, 4.0) gives 9.6; (10.0, 5.5, 4.0) gives 8.8; (9.0, 3.0, 4.5)
gives 10.2. -/
theorem claim7_scenarios :
    handleCalculate ⟨.num 9.5, .num 3.5, .missing⟩ = .ok ⟨9.9⟩ ∧
    handleCalculate ⟨.num 8.0, .num 2.0, .num 4.0⟩ = .ok ⟨9.6⟩ ∧
    handleCalculate ⟨.num 10.0, .num 5.5, .num 4.0⟩ = .ok ⟨8.8⟩ ∧
    handleCalculate ⟨.num 9.0, .num 3.0, .num 4.5⟩ = .ok ⟨10.2⟩ := by
  have h1 : round1 ((99 : ℚ)/10) = 99/10 := round1_eq_self _ 99 (by norm_num)
  have h2 : round1 ((48 : ℚ)/5) = 48/5 := round1_eq_self _ 96 (by norm_num)
  have h3 : round1 ((44 : ℚ)/5) = 44/5 := round1_eq_self _ 88 (by norm_num)
  have h4 : round1 ((51 : ℚ)/5) = 51/5 := round1_eq_self _ 102 (by norm_num)
  refine ⟨?_, ?_, ?_, ?_⟩ <;>
    norm_num [handleCalculate, validate, parseField, calculate_corrected_calcium,
      Except.map, h1, h2, h3, h4]

/-- C8: for every validated input the returned value is an exact multiple
of one tenth — a finite decimal with one fractional digit. -/
theorem claim8_one_decimal (m s n : ℚ) (h : validInput m s n) :
    ∃ k : ℤ, handleCalculate ⟨.num m, .num s, .num n⟩ = .ok ⟨(k : ℚ) / 10⟩ := by
  obtain ⟨hm, hs, hn⟩ := h
  refine ⟨rne (10 * (m + 0.8 * (n - s))), ?_⟩
  simp [handleCalculate, validate, parseField, hm.1, hm.2, hs.1, hs.2, hn.1, hn.2,
    Except.map, calculate_corrected_calcium, round1]

/-- Witness for C8 at measured 9.5, serum 3.5, normal 4.0. -/
theorem claim8_one_decimal_witness :
    ∃ k : ℤ, handleCalculate ⟨.num 9.5, .num 3.5, .num 4.0⟩ = .ok ⟨(k : ℚ) / 10⟩ :=
  claim8_one_decimal 9.5 3.5 4.0 (by norm_num [validInput])

/-- C9: for every validated input the raw formula value and its rounding
both lie in `[2.0, 16.4]`; the output is not re-validated against the
`measuredCalcium` range and can fall outside `[4.0, 14.0]`, as at
measured 4.0, serum 5.5, normal 3.0, which yields 2.0. -/
theorem claim9_bounds (m s n : ℚ) (h : validInput m s n) :
    ((2 : ℚ) ≤ m + 0.8 * (n - s) ∧ m + 0.8 * (n - s) ≤ 16.4) ∧
    ((2 : ℚ) ≤ round1 (m + 0.8 * (n - s)) ∧ round1 (m + 0.8 * (n - s)) ≤ 16.4) ∧
    handleCalculate ⟨.num 4.0, .num 5.5, .num 3.0⟩ = .ok ⟨2⟩ ∧
    ¬((4.0 : ℚ) ≤ 2 ∧ (2 : ℚ) ≤ 14.0) := by
  obtain ⟨⟨hm1, hm2⟩, ⟨hs1, hs2⟩, ⟨hn1, hn2⟩⟩ := h
  have hlo : (2 : ℚ) ≤ m + 0.8 * (n - s) := by
    norm_num at hm1 hs2 hn1 ⊢
    linarith
  have hhi : m + 0.8 * (n - s) ≤ 16.4 := by
    norm_num at hm2 hs1 hn2 ⊢
    linarith
  have hrlo := round1_ge (m + 0.8 * (n - s)) 20 (by push_cast; linarith)
  have hrhi := round1_le (m + 0.8 * (n - s)) 164 (by push_cast; norm_num at hhi ⊢; linarith)
  have hc : round1 ((2 : ℚ)) = 2 := round1_eq_self _ 20 (by norm_num)
  refine ⟨⟨hlo, hhi⟩, ⟨by push_cast at hrlo; linarith, by push_cast at hrhi; norm_num; linarith⟩, ?_, by norm_num⟩
  norm_num [handleCalculate, validate, parseField, calculate_corrected_calcium,
    Except.map, hc]

/-- Witness for C9 at measured 9.5, serum 3.5, normal 4.0. -/
theorem claim9_bounds_witness :
    ((2 : ℚ) ≤ (9.5 : ℚ) + 0.8 * (4.0 - 3.5) ∧ (9.5 : ℚ) + 0.8 * (4.0 - 3.5) ≤ 16.4) ∧
    ((2 : ℚ) ≤ round1 ((9.5 : ℚ) + 0.8 * (4.0 - 3.5)) ∧ round1 ((9.5 : ℚ) + 0.8 * (4.0 - 3.5)) ≤ 16.4) ∧
    handleCalculate ⟨.num 4.0, .num 5.5, .num 3.0⟩ = .ok ⟨2⟩ ∧
    ¬((4.0 : ℚ) ≤ 2 ∧ (2 : ℚ) ≤ 14.0) :=
  claim9_bounds 9.5 3.5 4.0 (by norm_num [validInput])

/-- C10: the implementation's one-decimal rounding is round half to even
(the convention of Python's built-in `round`): on every exact midpoint it
picks the neighbour with even tenths digit, so the request
(9.25, 4.0, 4.0) — whose formula value 9.25 is float-exact — yields 9.2,
whereas the spec's alternative, round half away from zero, would yield
9.3. -/
theorem claim10_half_even :
    (∀ k : ℤ, round1 ((2 * k + 1 : ℚ) / 20) =
      (if k % 2 = 0 then (k : ℚ) else (k : ℚ) + 1) / 10) ∧
    handleCalculate ⟨.num 9.25, .num 4.0, .num 4.0⟩ = .ok ⟨9.2⟩ ∧
    roundHalfAway1 9.25 = 9.3 ∧
    (9.2 : ℚ) ≠ 9.3 := by
  have hmid : ∀ k : ℤ, round1 ((2 * k + 1 : ℚ) / 20) =
      (if k % 2 = 0 then (k : ℚ) else (k : ℚ) + 1) / 10 := by
    intro k
    have h10 : (10 : ℚ) * ((2 * k + 1 : ℚ) / 20) = (k : ℚ) + 1/2 := by
      ring
    rw [round1, h10, rne_half_add]
    split_ifs <;> push_cast <;> ring
  refine ⟨hmid, ?_, ?_, by norm_num⟩
  · have h925 : round1 ((37 : ℚ)/4) = 46/5 := by
      have := hmid 92
      norm_num at this
      convert this using 2
    norm_num [handleCalculate, validate, parseField, calculate_corrected_calcium,
      Except.map, h925]
  · norm_num [roundHalfAway1, rnaz]

end CalcCorrection
